import Mathlib

/-!
Shallow embedding of the negotiation-and-replacement engine of
`polyfill/src/core.tsx` (the dirplayer polyfill bootstrap): semver
comparison, element classification, the replacement pipeline, the
cross-world negotiation over DOM attributes on the document root, and
the mutation-observer callback.  Definitions are translated from the
TypeScript source; JavaScript host primitives (string operations,
`Number`, attribute maps, object key iteration order) are modelled
explicitly over `List Char` so that every definition evaluates by
kernel reduction.
-/

namespace DirPlayer

/-! ### JS string primitives, modelled over `List Char` -/

/-- JS `s.endsWith(suffix)`. -/
def jsEndsWith (s suffix : String) : Bool :=
  suffix.data.isSuffixOf s.data

/-- JS `s.toLowerCase()` on the character list (ASCII case folding, which
covers every string the engine compares). -/
def lowerChars (l : List Char) : List Char :=
  l.map Char.toLower

/-- Case-insensitive string equality: both sides lowered, as the source
always lowercases both operands before comparing. -/
def eqCaseInsensitive (a b : String) : Bool :=
  lowerChars a.data = lowerChars b.data

/-- JS `s.split('.')`: always at least one field, empty fields kept
(`"".split('.') = [""]`, `"a..b".split('.') = ["a","","b"]`). -/
def splitOnDot : List Char → List (List Char)
  | [] => [[]]
  | c :: rest =>
    let r := splitOnDot rest
    if c = '.' then [] :: r
    else
      match r with
      | [] => [[c]]
      | h :: t => (c :: h) :: t

/-- JS `s.trim()` (whitespace stripped from both ends). -/
def listTrim (l : List Char) : List Char :=
  ((l.dropWhile Char.isWhitespace).reverse.dropWhile Char.isWhitespace).reverse

/-- Numeric value of a digit sequence, most significant digit first. -/
def digitsVal (l : List Char) : Nat :=
  l.foldl (fun n c => n * 10 + (c.toNat - 48)) 0

/-- Model of the JS `Number` conversion on the string fragments that can
appear as dotted version components: the whitespace-trimmed empty string
is 0, an optional sign followed by decimal digits is that integer,
anything else is NaN (`none`).  (Exotic numeric forms such as hex or
exponent notation are outside the modelled fragment.) -/
def jsNumber (s : List Char) : Option Int :=
  let t := listTrim s
  if t.isEmpty then some 0
  else if t.all Char.isDigit then some (Int.ofNat (digitsVal t))
  else
    match t with
    | '-' :: ds =>
      if !ds.isEmpty && ds.all Char.isDigit then some (-(digitsVal ds : Int)) else none
    | '+' :: ds =>
      if !ds.isEmpty && ds.all Char.isDigit then some (Int.ofNat (digitsVal ds)) else none
    | _ => none

/-! ### `compareSemver` (source lines 14–24) -/

/-- `partsA[i] || 0` of the source: an out-of-range index (`undefined`)
and a NaN component both collapse to 0. -/
def semverPart (parts : List (Option Int)) (i : Nat) : Int :=
  ((parts.get? i).join).getD 0

/-- The index loop of `compareSemver`, with explicit fuel
`max partsA.length partsB.length`; returns 1 / -1 at the first unequal
component, 0 when the loop ends. -/
def compareLoop (pa pb : List (Option Int)) : Nat → Nat → Int
  | _, 0 => 0
  | i, fuel + 1 =>
    let numA := semverPart pa i
    let numB := semverPart pb i
    if numA > numB then 1
    else if numA < numB then -1
    else compareLoop pa pb (i + 1) fuel

/-- `compareSemver(a, b)` from the source: split both strings on `'.'`,
convert each part with `Number`, compare index by index with missing or
NaN parts defaulting to 0. -/
def compareSemver (a b : String) : Int :=
  let partsA := (splitOnDot a.data).map jsNumber
  let partsB := (splitOnDot b.data).map jsNumber
  compareLoop partsA partsB 0 (max partsA.length partsB.length)

/-- Lexicographic comparison of two integer lists, written the way the
spec describes semver ordering (the lists are always padded to equal
length before use). -/
def lexCompare : List Int → List Int → Int
  | [], _ => 0
  | _ :: _, [] => 0
  | x :: xs, y :: ys =>
    if x > y then 1
    else if x < y then -1
    else lexCompare xs ys

/-- Spec-side semver comparison, from the spec's words: each version is an
ordered tuple of components (malformed or missing components read as 0),
the two tuples are padded to a common length with zeros and compared
lexicographically. -/
def semverSpecCompare (a b : String) : Int :=
  let partsA := (splitOnDot a.data).map jsNumber
  let partsB := (splitOnDot b.data).map jsNumber
  let n := max partsA.length partsB.length
  lexCompare ((List.range n).map (semverPart partsA))
             ((List.range n).map (semverPart partsB))

/-! ### The params record (JS plain object built by `checkDirObject`)

A JS object with string keys is modelled as an association list in key
insertion order; re-assigning an existing key updates it in place, which
matches JS property-order semantics.  A value is `Option String` because
`param.getAttribute('value')` yields `null` when the attribute is absent. -/

/-- `obj[k] = v` on a JS object modelled as an ordered association list. -/
def recordSet (m : List (String × Option String)) (k : String) (v : Option String) :
    List (String × Option String) :=
  if m.any (fun p => p.1 = k) then
    m.map (fun p => if p.1 = k then (k, v) else p)
  else m ++ [(k, v)]

/-- `obj[k]` with exact key match: `none` is JS `undefined`,
`some none` is a stored `null`. -/
def recordGet (m : List (String × Option String)) (k : String) : Option (Option String) :=
  (m.find? (fun p => p.1 = k)).map (fun p => p.2)

/-- `getCaseInsensitiveValue(obj, key)` (source lines 26–33): scan the keys
in insertion order and return the value of the first case-insensitive
match, `undefined` (`none`) if no key matches. -/
def getCaseInsensitiveValue (m : List (String × Option String)) (key : String) :
    Option (Option String) :=
  (m.find? (fun p => eqCaseInsensitive p.1 key)).map (fun p => p.2)

/-- JS truthiness of a `string | null | undefined` value: falsy iff
`undefined`, `null` or the empty string. -/
def truthyVal : Option (Option String) → Bool
  | some (some s) => !s.isEmpty
  | _ => false

/-- JS truthiness of a `string | null` value (e.g. `getAttribute` results). -/
def truthyAttr : Option String → Bool
  | some s => !s.isEmpty
  | none => false

/-! ### ElementClassifier (source lines 35–53) -/

/-- The attributes and DOM properties of an `<embed>` element the engine
reads: `src`/`width`/`height` DOM properties (empty string when the
attribute is absent), the `data-src` attribute, and the `sw1..swN`
attributes as a map from the 1-based index (`getAttribute` yields `none`
for an absent attribute). -/
structure EmbedElem where
  src : String
  width : String
  height : String
  dataSrc : Option String
  sw : Nat → Option String

/-- The parts of an `<object>` element the engine reads: the `classid`
attribute, the `width`/`height` DOM properties, and the child `<param>`
tags in document order as `(name, value)` attribute pairs
(`name = none` when the `name` attribute is absent). -/
structure ObjectElem where
  classid : Option String
  width : String
  height : String
  paramTags : List (Option String × Option String)

/-- `checkDirEmbed` (source lines 35–37): an `<embed>` is eligible iff its
`src` ends with `.dcr`. -/
def checkDirEmbed (e : EmbedElem) : Bool :=
  jsEndsWith e.src ".dcr"

/-- The params record built by `checkDirObject` (source lines 40–46): the
`<param>` children reduced into a JS object, a missing `name` attribute
read as `''`. -/
def objectParams (o : ObjectElem) : List (String × Option String) :=
  o.paramTags.foldl (fun acc t => recordSet acc (t.1.getD "") t.2) []

/-- The reserved `classid` of the legacy format, already lowercased as the
source compares it. -/
def dirClassIdLower : String := "clsid:166b1bca-3f9c-11cf-8075-444553540000"

/-- `classId?.toLowerCase() === '...'.toLowerCase()` of `checkDirObject`:
`none` (a missing attribute) never matches. -/
def classIdMatches (classid : Option String) : Bool :=
  match classid with
  | some c => lowerChars c.data = dirClassIdLower.data
  | none => false

/-- `!!src?.endsWith('.dcr')` of `checkDirObject`: `undefined` and `null`
are both falsy. -/
def srcEndsWithDcr (src : Option (Option String)) : Bool :=
  match src with
  | some (some s) => jsEndsWith s ".dcr"
  | _ => false

/-- `checkDirObject` (source lines 39–53): build the params record, then
the `<object>` is eligible iff its `classid` matches the reserved id
case-insensitively or the case-insensitive `src` param ends with `.dcr`.
Returns the eligibility flag together with the params record. -/
def checkDirObject (o : ObjectElem) : Bool × List (String × Option String) :=
  let params := objectParams o
  let src := getCaseInsensitiveValue params "src"
  (classIdMatches o.classid || srcEndsWithDcr src, params)

/-! ### External-parameter extraction (source lines 85–92 and 118–125)

Both replacement functions run the same loop: for `i = 1` to `30`, look up
the `sw{i}` key, `break` at the first absent value, otherwise record
`sw{i} ↦ value`.  The lookup is abstracted as `g : Nat → Option String`
(`getAttribute('sw'+i)` for an `<embed>`; `params['sw'+i]`, with a stored
`null` also breaking the loop, for an `<object>`). -/

/-- The key `sw{i}` of the `i`-th external parameter. -/
def swKey (i : Nat) : String :=
  "sw" ++ toString i

/-- The extraction loop from index `i` with the given fuel: stop at the
first absent index, otherwise record the pair and continue. -/
def extractLoop (g : Nat → Option String) : Nat → Nat → List (String × String)
  | _, 0 => []
  | i, fuel + 1 =>
    match g i with
    | none => []
    | some v => (swKey i, v) :: extractLoop g (i + 1) fuel

/-- The full extraction: indices 1 through 30. -/
def extractExternalParams (g : Nat → Option String) : List (String × String) :=
  extractLoop g 1 30

/-! ### ReplacementPipeline (source lines 80–130) -/

/-- One `renderPlayer` invocation: the geometry, source URL and external
parameters handed to the external renderer for a freshly created mount
element. -/
structure RenderCall where
  width : String
  height : String
  src : String
  externalParams : List (String × String)

/-- Which DOM node `replaceDirEmbed` detaches (replaces with the mount):
the parent `<object>` when the `<embed>` is nested in one, the `<embed>`
itself otherwise. -/
inductive Detached where
  | parentObject
  | selfEmbed
deriving DecidableEq

/-- What the engine reads of the parent of an `<embed>`:
`element.parentElement.tagName === 'OBJECT'` selects the first branch. -/
inductive EmbedParent where
  | objectParent (o : ObjectElem)
  | otherParent

/-- The observable outcome of `replaceDirEmbed`: which node was detached
and the render calls made (always exactly one). -/
structure EmbedReplaceResult where
  detached : Detached
  calls : List RenderCall

/-- `replaceDirEmbed` (source lines 80–109): resolve `src` (falling back
to `data-src` when the `src` property is falsy), extract the external
parameters from the `sw{i}` attributes, then — when the parent is an
`<object>` — prefer the parent's truthy `width`/`height` and detach the
parent, otherwise detach the `<embed>` itself; finally hand the mount to
the renderer. -/
def replaceDirEmbed (e : EmbedElem) (parent : EmbedParent) : EmbedReplaceResult :=
  let src := if e.src.isEmpty then e.dataSrc.getD "" else e.src
  let ep := extractExternalParams e.sw
  match parent with
  | .objectParent o =>
    let w := if !o.width.isEmpty then o.width else e.width
    let h := if !o.height.isEmpty then o.height else e.height
    { detached := .parentObject, calls := [⟨w, h, src, ep⟩] }
  | .otherParent =>
    { detached := .selfEmbed, calls := [⟨e.width, e.height, src, ep⟩] }

/-- The observable outcome of `replaceDirObject`: either the element was
skipped with a logged error (no mount created, the `<object>` stays
attached, no renderer instance), or it was replaced by a mount and the
renderer was invoked once. -/
inductive ObjReplaceOutcome where
  | skippedNoSrc
  | replaced (call : RenderCall)

/-- `replaceDirObject` (source lines 111–130): look up `src`
case-insensitively in the params record; when falsy (`undefined`, `null`
or empty) log an error and return without touching the document;
otherwise extract the external parameters from the `sw{i}` params
(a stored `null` also stops the loop), replace the `<object>` with a
mount and invoke the renderer. -/
def replaceDirObject (o : ObjectElem) (params : List (String × Option String)) :
    ObjReplaceOutcome :=
  let src := getCaseInsensitiveValue params "src"
  if truthyVal src then
    let s := (src.join).getD ""
    let ep := extractExternalParams (fun i => (recordGet params (swKey i)).join)
    .replaced ⟨o.width, o.height, s, ep⟩
  else .skippedNoSrc

/-! ### NegotiationArbiter (source lines 149–228)

The three coordination attributes on the document root are the whole
shared state: `data-dirplayer-version`, `data-dirplayer-source`,
`data-dirplayer-initialized`.  `getAttribute` yields `Option String`
(`none` = attribute absent); the initialized attribute is presence-only,
so it is modelled as a `Bool`. -/

/-- The negotiation attributes of the document root. -/
structure NegState where
  version : Option String
  source : Option String
  initFlag : Bool
deriving DecidableEq

/-- The observable outcome of `performInit`: the resulting shared state
and whether this call performed the one-time initialization (setting the
initialized attribute, running the initial sweep
`replaceDirPlayerElements`, and starting the `MutationObserver`). -/
structure InitOutcome where
  state : NegState
  didInit : Bool
deriving DecidableEq

/-- `performInit` (source lines 160–192): re-check at execution time —
abort when the shared `source` attribute differs from the one this
candidate wrote, or when the initialized attribute is already present;
otherwise set the initialized attribute and perform the one-time
initialization.  Note the `version` argument is only logged, never
compared. -/
def performInit (st : NegState) (source : String) (version : String) : InitOutcome :=
  if st.source ≠ some source then ⟨st, false⟩
  else if st.initFlag then ⟨st, false⟩
  else ⟨{ st with initFlag := true }, true⟩

/-- How a call to `initPolyfill` returns: it found the document already
initialized; it lost the priority comparison and deferred (no write); or
it wrote its own version/source into the shared attributes and scheduled
the deferred confirmation (`performInit`). -/
inductive RegisterResult where
  | alreadyDone
  | deferredLost
  | claimed
deriving DecidableEq

/-- The priority rule of `initPolyfill` (source line 209): the new
candidate wins iff its version compares higher, or compares equal and its
own source is `'polyfill'` — the existing source is not consulted. -/
def winsOverExisting (version source existingVersion : String) : Bool :=
  let cmp := compareSemver version existingVersion
  decide (0 < cmp) || (decide (cmp = 0) && decide (source = "polyfill"))

/-- `initPolyfill` (source lines 194–228): return immediately when the
initialized attribute is present; when both claim attributes are truthy,
apply the priority rule and defer on a loss; otherwise (and on a win)
overwrite both claim attributes with this candidate's version and source
and schedule the deferred confirmation. -/
def initPolyfill (st : NegState) (version source : String) : NegState × RegisterResult :=
  if st.initFlag then (st, .alreadyDone)
  else if truthyAttr st.version && truthyAttr st.source then
    if winsOverExisting version source (st.version.getD "") then
      ({ st with version := some version, source := some source }, .claimed)
    else (st, .deferredLost)
  else
    ({ st with version := some version, source := some source }, .claimed)

/-- The operations of the engine that touch the shared negotiation state:
a `register` is a call to `initPolyfill`, a `confirm` is the deferred
`performInit` of some earlier candidate. -/
inductive EngineOp where
  | register (version source : String)
  | confirm (source version : String)

/-- The shared-state transition of one engine operation. -/
def stepOp (st : NegState) : EngineOp → NegState
  | .register v s => (initPolyfill st v s).1
  | .confirm s v => (performInit st s v).state

/-- The number of absent→present transitions of the initialized attribute
along a run of engine operations. -/
def initFlips (st : NegState) : List EngineOp → Nat
  | [] => 0
  | op :: ops =>
    let st2 := stepOp st op
    (if !st.initFlag && st2.initFlag then 1 else 0) + initFlips st2 ops

/-! ### MutationWatcher (source lines 174–191)

The observer callback iterates the delivered mutation records in order
and, inside each record, the `addedNodes` in order; a node is processed
only when it is itself an `<embed>` or `<object>` element. -/

/-- A DOM node as the observer callback sees it: an `<embed>`, an
`<object>`, or any other element (whose children are carried so that
claims about descendants can be stated). -/
inductive DomNode where
  | embed (e : EmbedElem)
  | objectElem (o : ObjectElem)
  | container (tag : String) (children : List DomNode)

/-- What the callback does to one inserted node: classify and, when
eligible, replace (invoking the renderer). -/
inductive ObsAction where
  | replacedEmbed (e : EmbedElem)
  | replacedObject (o : ObjectElem)

/-- The per-node body of the observer callback (source lines 177–186):
an `EMBED` passing `checkDirEmbed` is replaced; an `OBJECT` passing
`checkDirObject` is replaced; any other node — including one that merely
contains legacy elements as descendants — is ignored. -/
def processAddedNode : DomNode → List ObsAction
  | .embed e => if checkDirEmbed e then [.replacedEmbed e] else []
  | .objectElem o => if (checkDirObject o).1 then [.replacedObject o] else []
  | .container _ _ => []

/-- One delivered mutation record: its `addedNodes` in document order. -/
structure MutationRecord where
  addedNodes : List DomNode

/-- The observer callback (source lines 174–189), written as the source's
two nested loops accumulating replacements in delivery order. -/
def observerCallback (muts : List MutationRecord) : List ObsAction :=
  muts.foldl
    (fun acc m => m.addedNodes.foldl (fun acc2 n => acc2 ++ processAddedNode n) acc) []

/-- The per-node body with a fault oracle: `fails n` means the replacement
of `n` (e.g. the renderer handoff) throws.  The source has no
`try`/`catch`, so the exception escapes as an `Except.error`. -/
def processAddedNodeExc (fails : DomNode → Bool) (n : DomNode) :
    Except DomNode (List ObsAction) :=
  match n with
  | .embed e =>
    if checkDirEmbed e then (if fails n then .error n else .ok [.replacedEmbed e])
    else .ok []
  | .objectElem o =>
    if (checkDirObject o).1 then (if fails n then .error n else .ok [.replacedObject o])
    else .ok []
  | .container _ _ => .ok []

/-- Sequential processing of the added nodes of one record under the fault
oracle: an uncaught exception aborts the rest of the list. -/
def processNodesExc (fails : DomNode → Bool) : List DomNode → Except DomNode (List ObsAction)
  | [] => .ok []
  | n :: ns =>
    match processAddedNodeExc fails n with
    | .error d => .error d
    | .ok a =>
      match processNodesExc fails ns with
      | .error d => .error d
      | .ok rest => .ok (a ++ rest)

/-- The whole callback under the fault oracle: records in delivery order,
an uncaught exception aborts the remaining records of the batch. -/
def observerCallbackExc (fails : DomNode → Bool) :
    List MutationRecord → Except DomNode (List ObsAction)
  | [] => .ok []
  | m :: ms =>
    match processNodesExc fails m.addedNodes with
    | .error d => .error d
    | .ok a =>
      match observerCallbackExc fails ms with
      | .error d => .error d
      | .ok rest => .ok (a ++ rest)

mutual
/-- Spec-side predicate (§4.4 of the spec, used only to state claims about
the watcher): whether a node is, or contains anywhere in its subtree, an
eligible legacy element. -/
def subtreeHasEligible : DomNode → Bool
  | .embed e => checkDirEmbed e
  | .objectElem o => (checkDirObject o).1
  | .container _ cs => forestHasEligible cs
/-- Spec-side predicate: whether any node of the forest is, or contains,
an eligible legacy element. -/
def forestHasEligible : List DomNode → Bool
  | [] => false
  | n :: ns => subtreeHasEligible n || forestHasEligible ns
end

/-- Claim C1 stated the spec's way: the deferred recheck succeeds iff the
shared attributes still hold both the version and the source this
candidate wrote and the initialized attribute is absent. -/
def recheckClaimBothAttrs : Prop :=
  ∀ (st : NegState) (s v : String),
    (performInit st s v).didInit = true ↔
      (st.version = some v ∧ st.source = some s ∧ st.initFlag = false)

/-- Claim C2's win condition stated the spec's way: the candidate wins iff
its version compares higher, or compares equal with the candidate's source
the fallback (`'polyfill'`) and the existing source the primary
(`'extension'`). -/
def claimWinCondition (candVersion candSource exVersion exSource : String) : Prop :=
  0 < compareSemver candVersion exVersion ∨
    (compareSemver candVersion exVersion = 0 ∧ candSource = "polyfill" ∧
      exSource = "extension")

end DirPlayer

namespace DirPlayer

/-! ## Theorems -/

/-! ### C9 — `compareSemver` -/

lemma compareLoop_eq_lex (pa pb : List (Option Int)) :
    ∀ (fuel i : Nat), compareLoop pa pb i fuel =
      lexCompare ((List.range' i fuel).map (semverPart pa))
                 ((List.range' i fuel).map (semverPart pb)) := by
  intro fuel
  induction fuel with
  | zero => intro i; simp [compareLoop, lexCompare]
  | succ n ih =>
    intro i
    simp only [List.range'_succ, List.map_cons, compareLoop, lexCompare]
    rw [ih]

lemma compareLoop_vals (pa pb : List (Option Int)) :
    ∀ (fuel i : Nat), compareLoop pa pb i fuel = 1 ∨ compareLoop pa pb i fuel = 0 ∨
      compareLoop pa pb i fuel = -1 := by
  intro fuel
  induction fuel with
  | zero => intro i; simp [compareLoop]
  | succ n ih =>
    intro i
    simp only [compareLoop]
    split
    · exact Or.inl rfl
    · split
      · exact Or.inr (Or.inr rfl)
      · exact ih (i + 1)

/-- C9: `compareSemver` compares two dotted version strings as tuples of
integer components lexicographically, a missing trailing component and a
malformed (non-numeric) component both reading as 0 (`semverSpecCompare`
states this ordering the spec's way); it is a total function whose result
is always 1, 0 or -1 (it never throws), and on the spec's examples it
returns 0 for `"1.0"` vs `"1.0.0"` and a positive result for `"1.1"` vs
`"1.0.9"`. -/
theorem compareSemver_matches_spec :
    (∀ a b : String, compareSemver a b = semverSpecCompare a b) ∧
    (∀ a b : String, compareSemver a b = 1 ∨ compareSemver a b = 0 ∨
      compareSemver a b = -1) ∧
    compareSemver "1.0" "1.0.0" = 0 ∧ compareSemver "1.1" "1.0.9" = 1 := by
  refine ⟨fun a b => ?_, fun a b => compareLoop_vals _ _ _ _, by decide, by decide⟩
  unfold compareSemver semverSpecCompare
  simp only [List.range_eq_range']
  rw [compareLoop_eq_lex]

/-! ### C4 — external-parameter extraction -/

lemma extractLoop_spec (g : Nat → Option String) :
    ∀ (fuel i : Nat), ∃ k, k ≤ fuel ∧
      (∀ j, j < k → g (i + j) ≠ none) ∧
      (k < fuel → g (i + k) = none) ∧
      extractLoop g i fuel =
        (List.range' i k).map (fun idx => (swKey idx, (g idx).getD "")) := by
  intro fuel
  induction fuel with
  | zero =>
    intro i
    exact ⟨0, Nat.le_refl 0, fun j hj => absurd hj (Nat.not_lt_zero j),
      fun h => absurd h (Nat.lt_irrefl 0), by simp [extractLoop]⟩
  | succ n ih =>
    intro i
    cases hg : g i with
    | none =>
      refine ⟨0, Nat.zero_le _, fun j hj => absurd hj (Nat.not_lt_zero j),
        fun _ => by simpa using hg, ?_⟩
      simp [extractLoop, hg]
    | some v =>
      obtain ⟨k, hk, hpres, hstop, heq⟩ := ih (i + 1)
      refine ⟨k + 1, Nat.succ_le_succ hk, ?_, ?_, ?_⟩
      · intro j hj
        cases j with
        | zero => simp [hg]
        | succ j' =>
          have hlt : j' < k := Nat.lt_of_succ_lt_succ hj
          have := hpres j' hlt
          simpa [Nat.add_assoc, Nat.add_comm 1 j'] using this
      · intro hlt
        have hkn : k < n := Nat.lt_of_succ_lt_succ hlt
        have := hstop hkn
        simpa [Nat.add_assoc, Nat.add_comm 1 k] using this
      · simp only [extractLoop, hg, List.range'_succ, List.map_cons, heq]
        simp [hg]

/-- C4: for every lookup function, the extraction reads keys `sw1`, `sw2`, …
in ascending index order and yields exactly the consecutive prefix of
present indices: there is a `k ≤ 30` such that every index `1..k` is
present, the scan stopped either at the cap 30 or because index `k+1` is
absent, and the result maps exactly the indices `1..k` in order to their
values.  On the spec's example `sw1=a, sw2=b, sw4=d` (sw3 missing) the
result is exactly `{sw1: a, sw2: b}`. -/
theorem extractExternalParams_consecutive_prefix :
    (∀ g : Nat → Option String, ∃ k, k ≤ 30 ∧
      (∀ j, 1 ≤ j → j ≤ k → g j ≠ none) ∧
      (k < 30 → g (k + 1) = none) ∧
      extractExternalParams g =
        (List.range' 1 k).map (fun idx => (swKey idx, (g idx).getD ""))) ∧
    extractExternalParams
      (fun i => if i = 1 then some "a" else if i = 2 then some "b"
        else if i = 4 then some "d" else none) = [("sw1", "a"), ("sw2", "b")] := by
  refine ⟨fun g => ?_, by decide⟩
  obtain ⟨k, hk, hpres, hstop, heq⟩ := extractLoop_spec g 30 1
  refine ⟨k, hk, ?_, ?_, heq⟩
  · intro j h1 hjk
    have hlt : j - 1 < k := by omega
    have := hpres (j - 1) hlt
    have hj : 1 + (j - 1) = j := by omega
    rwa [hj] at this
  · intro h
    have := hstop h
    rwa [Nat.add_comm] at this

/-! ### C3 — the initialized attribute is set at most once -/

lemma initPolyfill_initTrue (st : NegState) (v s : String) (h : st.initFlag = true) :
    initPolyfill st v s = (st, .alreadyDone) := by
  simp [initPolyfill, h]

lemma performInit_initTrue (st : NegState) (s v : String) (h : st.initFlag = true) :
    performInit st s v = ⟨st, false⟩ := by
  unfold performInit
  split
  · rfl
  · simp [h]

lemma stepOp_initFlag_mono (st : NegState) (op : EngineOp) (h : st.initFlag = true) :
    (stepOp st op).initFlag = true := by
  cases op with
  | register v s => simp [stepOp, initPolyfill_initTrue st v s h, h]
  | confirm s v => simp [stepOp, performInit_initTrue st s v h, h]

lemma initFlips_of_true (ops : List EngineOp) :
    ∀ st : NegState, st.initFlag = true → initFlips st ops = 0 := by
  induction ops with
  | nil => intro st _; rfl
  | cons op ops ih =>
    intro st h
    simp only [initFlips, h]
    simp [ih _ (stepOp_initFlag_mono st op h)]

lemma initFlips_le_one (ops : List EngineOp) : ∀ st : NegState, initFlips st ops ≤ 1 := by
  induction ops with
  | nil => intro st; simp [initFlips]
  | cons op ops ih =>
    intro st
    simp only [initFlips]
    cases hf : (stepOp st op).initFlag with
    | true =>
      rw [initFlips_of_true ops _ hf]
      cases st.initFlag <;> simp
    | false =>
      simp only [hf, Bool.and_false, if_false]
      simpa using ih (stepOp st op)

/-- C3: along any run of engine operations (registrations and deferred
confirmations) the initialized attribute flips from absent to present at
most once; once present it survives every operation; and any
`initPolyfill` or `performInit` call made when it is present returns
immediately with the state unchanged and no side effect (no attribute
write, no sweep, no observer start — `RegisterResult.alreadyDone`
resp. `didInit = false`). -/
theorem negotiation_initFlag_at_most_once :
    (∀ (st : NegState) (ops : List EngineOp), initFlips st ops ≤ 1) ∧
    (∀ (st : NegState) (op : EngineOp), st.initFlag = true →
      (stepOp st op).initFlag = true) ∧
    (∀ (st : NegState) (v s : String), st.initFlag = true →
      initPolyfill st v s = (st, .alreadyDone)) ∧
    (∀ (st : NegState) (s v : String), st.initFlag = true →
      performInit st s v = ⟨st, false⟩) :=
  ⟨fun st ops => initFlips_le_one ops st, stepOp_initFlag_mono,
    initPolyfill_initTrue, performInit_initTrue⟩

/-! ### C10 — a half-written claim is treated as Unclaimed -/

/-- C10: when the initialized attribute is absent and exactly one of the
two claim attributes is present on the document root, `initPolyfill`
performs no priority comparison: for every candidate version and source it
unconditionally overwrites both attributes and schedules the deferred
confirmation (`RegisterResult.claimed`). -/
theorem register_half_claim_treated_unclaimed :
    ∀ (st : NegState) (v s : String), st.initFlag = false →
      (st.version.isSome = true ∧ st.source = none) ∨
        (st.version = none ∧ st.source.isSome = true) →
      initPolyfill st v s =
        ({ st with version := some v, source := some s }, .claimed) := by
  intro st v s hInit hone
  unfold initPolyfill
  rw [hInit]
  have hfalse : (truthyAttr st.version && truthyAttr st.source) = false := by
    rcases hone with ⟨_, hs⟩ | ⟨hv, _⟩
    · rw [hs]; simp [truthyAttr]
    · rw [hv]; simp [truthyAttr]
  rw [hfalse]
  simp

theorem register_half_claim_treated_unclaimed_witness :
    initPolyfill ⟨some "1.0", none, false⟩ "2.0" "polyfill" =
      (⟨some "2.0", some "polyfill", false⟩, .claimed) :=
  register_half_claim_treated_unclaimed ⟨some "1.0", none, false⟩ "2.0" "polyfill"
    rfl (Or.inl ⟨rfl, rfl⟩)

/-! ### C2 — the priority rule does not consult the existing source -/

lemma winsOverExisting_eq_true_iff (v s ev : String) :
    winsOverExisting v s ev = true ↔
      (0 < compareSemver v ev ∨ (compareSemver v ev = 0 ∧ s = "polyfill")) := by
  simp [winsOverExisting]

/-- C2 counterexample: with an existing same-version claim whose source is
already the fallback `'polyfill'`, a `'polyfill'` candidate still wins —
the code overwrites the claim attributes (here visibly: `"1.0.0"` becomes
`"1.0"`) and schedules the deferred confirmation — although the claim's
win condition (which requires the existing source to be `'extension'`)
says the candidate must defer with no write. -/
theorem register_tiebreak_counterexample :
    initPolyfill ⟨some "1.0.0", some "polyfill", false⟩ "1.0" "polyfill" =
      (⟨some "1.0", some "polyfill", false⟩, .claimed) ∧
    ¬ claimWinCondition "1.0" "polyfill" "1.0.0" "polyfill" :=
  ⟨by decide, by unfold claimWinCondition; decide⟩

/-- C2 amended: with a prior claim present (both attributes truthy) and
the initialized attribute absent, the candidate overwrites the attributes
and schedules the deferred confirmation iff its version compares higher or
compares equal with its own source `'polyfill'` — the existing source is
not consulted; in every other case it defers with no write. -/
theorem register_priority_rule (st : NegState) (v s : String)
    (hInit : st.initFlag = false) (hv : truthyAttr st.version = true)
    (hs : truthyAttr st.source = true) :
    initPolyfill st v s =
      if 0 < compareSemver v (st.version.getD "") ∨
          (compareSemver v (st.version.getD "") = 0 ∧ s = "polyfill")
      then ({ st with version := some v, source := some s }, .claimed)
      else (st, .deferredLost) := by
  have hw := winsOverExisting_eq_true_iff v s (st.version.getD "")
  unfold initPolyfill
  simp only [hInit, hv, hs, Bool.false_eq_true, if_false, Bool.and_self, if_true]
  by_cases h : 0 < compareSemver v (st.version.getD "") ∨
      (compareSemver v (st.version.getD "") = 0 ∧ s = "polyfill")
  · rw [if_pos (hw.mpr h), if_pos h]
  · rw [if_neg (fun hc => h (hw.mp hc)), if_neg h]

theorem register_priority_rule_witness :
    initPolyfill ⟨some "1.0", some "extension", false⟩ "2.0" "extension" =
      (⟨some "2.0", some "extension", false⟩, .claimed) := by
  have h := register_priority_rule ⟨some "1.0", some "extension", false⟩ "2.0" "extension"
    rfl rfl rfl
  rw [h]
  decide

/-! ### C1 — the deferred recheck compares only the source attribute -/

/-- C1 counterexample: the claim — the deferred recheck succeeds iff both
the version and the source still match what the candidate wrote — is
false: a candidate that wrote `("1.0", 'polyfill')` and was overwritten by
`("2.0", 'polyfill')` still passes the recheck and initializes, because
`performInit` compares only the source attribute. -/
theorem confirm_recheck_counterexample : ¬ recheckClaimBothAttrs := by
  intro h
  have h2 := (h ⟨some "2.0", some "polyfill", false⟩ "polyfill" "1.0").mp (by decide)
  exact absurd h2.1 (by decide)

/-- C1 amended: the deferred confirmation performs the one-time
initialization (sets the initialized attribute; the sweep and the watcher
start are tied to `didInit = true`) iff the shared `source` attribute
still equals the source this candidate wrote and the initialized
attribute is absent — the version it wrote is not rechecked; in every
other case it aborts with the state unchanged and no side effect.  In
particular a same-source candidate whose version was overwritten by a
later writer still passes the recheck. -/
theorem confirm_recheck_source_only :
    (∀ (st : NegState) (s v : String),
      performInit st s v =
        if st.source = some s ∧ st.initFlag = false
        then ⟨{ st with initFlag := true }, true⟩
        else ⟨st, false⟩) ∧
    (performInit ⟨some "2.0", some "polyfill", false⟩ "polyfill" "1.0").didInit = true := by
  refine ⟨fun st s v => ?_, by decide⟩
  unfold performInit
  by_cases h1 : st.source = some s
  · rw [if_neg (not_not_intro h1)]
    by_cases h2 : st.initFlag = true
    · rw [if_pos h2, if_neg (by simp [h2])]
    · have h2f : st.initFlag = false := by simpa using h2
      rw [if_neg (by simp [h2f]), if_pos ⟨h1, h2f⟩]
  · rw [if_pos h1, if_neg (fun hc => h1 hc.1)]

/-! ### C5 — nested `<embed>` in an `<object>`: the outer geometry wins
and the outer node is detached -/

/-- C5: for every eligible `<embed>` whose parent is an eligible
`<object>` (in particular a sole child), the replacement detaches the
parent `<object>` — not the inner `<embed>` — and makes exactly one
render call whose width/height come from the `<object>`'s attributes when
those are non-empty, falling back to the `<embed>`'s own otherwise. -/
theorem replace_nested_embed_outer_wins :
    ∀ (e : EmbedElem) (o : ObjectElem), checkDirEmbed e = true →
      (checkDirObject o).1 = true →
      ∃ c : RenderCall,
        replaceDirEmbed e (.objectParent o) = ⟨.parentObject, [c]⟩ ∧
        (o.width.isEmpty = false → c.width = o.width) ∧
        (o.width.isEmpty = true → c.width = e.width) ∧
        (o.height.isEmpty = false → c.height = o.height) ∧
        (o.height.isEmpty = true → c.height = e.height) := by
  intro e o _ _
  refine ⟨_, rfl, ?_, ?_, ?_, ?_⟩ <;> intro h <;> simp [h]

theorem replace_nested_embed_outer_wins_witness :
    ∃ c : RenderCall,
      replaceDirEmbed ⟨"m.dcr", "100", "200", none, fun _ => none⟩
        (.objectParent ⟨some "clsid:166B1BCA-3F9C-11CF-8075-444553540000",
          "640", "480", []⟩) = ⟨.parentObject, [c]⟩ ∧
      (("640" : String).isEmpty = false → c.width = "640") ∧
      (("640" : String).isEmpty = true → c.width = "100") ∧
      (("480" : String).isEmpty = false → c.height = "480") ∧
      (("480" : String).isEmpty = true → c.height = "200") :=
  replace_nested_embed_outer_wins ⟨"m.dcr", "100", "200", none, fun _ => none⟩
    ⟨some "clsid:166B1BCA-3F9C-11CF-8075-444553540000", "640", "480", []⟩
    (by decide) (by decide)

/-! ### C8 — `<object>` eligible by `classid` but without a `src` param -/

/-- C8: an `<object>` whose `classid` matches the reserved identifier is
classified eligible even when the case-insensitive param lookup finds no
`src`; its replacement then logs an error and returns without replacing —
no mount is created, the element stays attached and no renderer instance
is made (`ObjReplaceOutcome.skippedNoSrc`). -/
theorem object_without_src_skipped :
    ∀ o : ObjectElem, classIdMatches o.classid = true →
      getCaseInsensitiveValue (checkDirObject o).2 "src" = none →
      (checkDirObject o).1 = true ∧
      replaceDirObject o (checkDirObject o).2 = .skippedNoSrc := by
  intro o h1 h2
  constructor
  · simp [checkDirObject, h1]
  · unfold replaceDirObject
    rw [h2]
    rfl

theorem object_without_src_skipped_witness :
    (checkDirObject ⟨some "clsid:166B1BCA-3F9C-11CF-8075-444553540000",
      "640", "480", []⟩).1 = true ∧
    replaceDirObject ⟨some "clsid:166B1BCA-3F9C-11CF-8075-444553540000", "640", "480", []⟩
      (checkDirObject ⟨some "clsid:166B1BCA-3F9C-11CF-8075-444553540000",
        "640", "480", []⟩).2 = .skippedNoSrc :=
  object_without_src_skipped
    ⟨some "clsid:166B1BCA-3F9C-11CF-8075-444553540000", "640", "480", []⟩
    (by decide) (by decide)

/-! ### C6 — the watcher looks only at the inserted node itself -/

lemma foldl_append_processNode (ns : List DomNode) :
    ∀ acc : List ObsAction,
      ns.foldl (fun acc2 n => acc2 ++ processAddedNode n) acc =
        acc ++ (ns.map processAddedNode).flatten := by
  induction ns with
  | nil => intro acc; simp
  | cons n ns ih =>
    intro acc
    simp only [List.foldl_cons, List.map_cons, List.flatten_cons, ih, List.append_assoc]

lemma foldl_append_records (muts : List MutationRecord) :
    ∀ acc : List ObsAction,
      muts.foldl
        (fun acc m => m.addedNodes.foldl (fun acc2 n => acc2 ++ processAddedNode n) acc)
        acc =
      acc ++ ((muts.map (fun m => (m.addedNodes.map processAddedNode).flatten)).flatten) := by
  induction muts with
  | nil => intro acc; simp
  | cons m ms ih =>
    intro acc
    rw [List.foldl_cons, ih, foldl_append_processNode, List.map_cons, List.flatten_cons,
      List.append_assoc]

/-- C6 counterexample: a mutation batch whose single inserted node is a
`<div>` containing an eligible `<embed>` as a descendant produces no
replacement at all — the callback never classifies descendants — although
the claim requires the contained element to be replaced. -/
theorem watcher_descendant_counterexample :
    subtreeHasEligible (DomNode.container "DIV"
      [DomNode.embed ⟨"movie.dcr", "640", "480", none, fun _ => none⟩]) = true ∧
    observerCallback [⟨[DomNode.container "DIV"
      [DomNode.embed ⟨"movie.dcr", "640", "480", none, fun _ => none⟩]]⟩] = [] :=
  ⟨by decide, rfl⟩

/-- C6 amended: the watcher applies classification and replacement only to
inserted nodes that are themselves `<embed>`/`<object>` — an eligible
inserted `<embed>` or `<object>` is replaced, but an inserted node that
merely contains such elements as descendants is ignored entirely — and
the eligible results are processed in batch-arrival order and, within a
record, in the order of its added nodes (the callback output is the
in-order flattening of the per-node actions). -/
theorem watcher_processes_toplevel_in_order :
    (∀ muts : List MutationRecord,
      observerCallback muts =
        ((muts.map (fun m => (m.addedNodes.map processAddedNode).flatten)).flatten)) ∧
    (∀ (e : EmbedElem), checkDirEmbed e = true →
      processAddedNode (.embed e) = [.replacedEmbed e]) ∧
    (∀ (o : ObjectElem), (checkDirObject o).1 = true →
      processAddedNode (.objectElem o) = [.replacedObject o]) ∧
    (∀ (tag : String) (cs : List DomNode), processAddedNode (.container tag cs) = []) := by
  refine ⟨fun muts => ?_, fun e he => ?_, fun o ho => ?_, fun tag cs => rfl⟩
  · unfold observerCallback
    rw [foldl_append_records]
    simp
  · simp [processAddedNode, he]
  · simp [processAddedNode, ho]

/-! ### C7 — an exception in the callback is not caught per node -/

/-- C7 counterexample: a batch of two eligible `<embed>`s where replacing
the first throws (the fault oracle fails on `bad.dcr`): the exception
escapes the callback and the second, eligible, sibling is never processed
— although the claim requires the failure to be caught per node. -/
theorem watcher_fault_counterexample :
    checkDirEmbed ⟨"good.dcr", "1", "1", none, fun _ => none⟩ = true ∧
    observerCallbackExc
      (fun n => match n with
        | .embed e => e.src == "bad.dcr"
        | _ => false)
      [⟨[DomNode.embed ⟨"bad.dcr", "1", "1", none, fun _ => none⟩,
         DomNode.embed ⟨"good.dcr", "1", "1", none, fun _ => none⟩]⟩] =
      .error (DomNode.embed ⟨"bad.dcr", "1", "1", none, fun _ => none⟩) :=
  ⟨by decide, rfl⟩

/-- C7 amended: a failure (exception) while replacing one inserted node is
not caught: processing a batch whose prefix succeeds and then hits a
failing node yields that exception, and the remaining inserted nodes of
the batch — whatever they are — are never processed. -/
theorem watcher_fault_aborts_batch :
    ∀ (fails : DomNode → Bool) (ns ms : List DomNode) (n : DomNode)
      (acts : List ObsAction),
      processNodesExc fails ns = .ok acts →
      processAddedNodeExc fails n = .error n →
      processNodesExc fails (ns ++ n :: ms) = .error n := by
  intro fails ns
  induction ns with
  | nil =>
    intro ms n acts _ herr
    rw [List.nil_append, processNodesExc, herr]
  | cons k ks ih =>
    intro ms n acts hok herr
    rw [processNodesExc] at hok
    rw [List.cons_append, processNodesExc]
    cases hk : processAddedNodeExc fails k with
    | error d =>
      rw [hk] at hok
      simp at hok
    | ok a =>
      rw [hk] at hok
      cases hks : processNodesExc fails ks with
      | error d =>
        rw [hks] at hok
        simp at hok
      | ok rest =>
        rw [ih ms n rest hks herr]

theorem watcher_fault_aborts_batch_witness :
    processNodesExc
      (fun n => match n with
        | .embed e => e.src == "bad.dcr"
        | _ => false)
      ([DomNode.embed ⟨"good.dcr", "1", "1", none, fun _ => none⟩] ++
        DomNode.embed ⟨"bad.dcr", "1", "1", none, fun _ => none⟩ ::
          [DomNode.embed ⟨"good2.dcr", "1", "1", none, fun _ => none⟩]) =
      .error (DomNode.embed ⟨"bad.dcr", "1", "1", none, fun _ => none⟩) :=
  watcher_fault_aborts_batch
    (fun n => match n with
      | .embed e => e.src == "bad.dcr"
      | _ => false)
    [DomNode.embed ⟨"good.dcr", "1", "1", none, fun _ => none⟩]
    [DomNode.embed ⟨"good2.dcr", "1", "1", none, fun _ => none⟩]
    (DomNode.embed ⟨"bad.dcr", "1", "1", none, fun _ => none⟩)
    [ObsAction.replacedEmbed ⟨"good.dcr", "1", "1", none, fun _ => none⟩]
    rfl rfl

end DirPlayer
